import Mathlib

/-!
Shallow embedding of `src/LTIK.py`: a small demo utility over a list of
records with normalization, top-N ranking by value, summary statistics and a
CLI driver. Python floats are modelled by exact rationals (`ℚ`); the single
irrational step (`math.sqrt` in `stats`) is modelled by `Real.sqrt` applied
to the rational variance.
-/

/-- The `Item` dataclass (lines 33-42): an `id`, a `name` and a numeric
`value`. -/
structure Item where
  id : Int
  name : String
  value : ℚ
deriving DecidableEq, Repr

/-- `normalize_values` (lines 45-60): computes `total = sum(i.value for i in
items)`; if `total == 0` it returns the input list unchanged, otherwise a new
list where each item keeps its `id` and `name` and has `value / total` as
value. -/
def normalize_values (items : List Item) : List Item :=
  let total := (items.map Item.value).sum
  if total = 0 then items
  else items.map fun i => ⟨i.id, i.name, i.value / total⟩

/-- The comparison used by `sorted(items, key=lambda x: x.value,
reverse=True)` (line 71): `a` may precede `b` exactly when `a.value ≥
b.value`; CPython's sort is stable, which `List.mergeSort` models. -/
def valueDescLE (a b : Item) : Bool := decide (b.value ≤ a.value)

/-- `top_n_by_value` (lines 63-72): empty list when `n <= 0`, otherwise the
first `n` items of the stable descending sort by `value`. -/
def top_n_by_value (items : List Item) (n : Int) : List Item :=
  if n ≤ 0 then []
  else (items.mergeSort valueDescLE).take n.toNat

/-- The dictionary returned by `stats` (lines 75-88), with the `stddev` entry
represented through the rational `variance` it is the square root of; see
`stddev` below for the sqrt step of line 87. `mean`/`variance` are `none`
exactly in the `count == 0` branch (line 82, `None` entries). -/
structure StatsResult where
  count : Nat
  sum : ℚ
  mean : Option ℚ
  variance : Option ℚ
deriving DecidableEq, Repr

/-- `stats` (lines 75-88) up to the final `math.sqrt`: count, sum, mean and
the population variance `sum((v - mean) ** 2 for v in values) / count`. -/
def stats (items : List Item) : StatsResult :=
  let count := items.length
  if count = 0 then ⟨0, 0, none, none⟩
  else
    let vals := items.map Item.value
    let s := vals.sum
    let mean := s / (count : ℚ)
    let variance := (vals.map fun v => (v - mean) ^ 2).sum / (count : ℚ)
    ⟨count, s, some mean, some variance⟩

/-- Line 87, `stddev = math.sqrt(variance)`: the real square root of the
variance computed by `stats`, absent when there are no items. -/
noncomputable def stddev (items : List Item) : Option ℝ :=
  (stats items).variance.map fun q => Real.sqrt (q : ℝ)

/-- `build_example_items` (lines 91-99): the fixed five-record sample. -/
def build_example_items : List Item :=
  [⟨1, "alpha", 10.0⟩, ⟨2, "beta", 5.0⟩, ⟨3, "gamma", 0.0⟩,
   ⟨4, "delta", 2.5⟩, ⟨5, "epsilon", 7.5⟩]

/-- The parsed CLI options (lines 102-107): `--top` (default 3),
`--normalize`, `--json`. -/
structure Args where
  top : Int
  normalize : Bool
  json : Bool
deriving DecidableEq, Repr

/-- The data computed by `main` (lines 110-122): the displayed top list and
the statistics record placed in `output["stats"]`, mirroring the source
statement by statement. -/
def main_output (a : Args) : List Item × StatsResult :=
  let items0 := build_example_items
  let items1 := if a.normalize then normalize_values items0 else items0
  let top := top_n_by_value items1 a.top
  (top, stats items1)

/-- The working set of the driver as the spec describes it (§4.3 step 3): the
sample data, normalized when the flag is set. -/
def working_set (a : Args) : List Item :=
  if a.normalize then normalize_values build_example_items
  else build_example_items

/-- The spec's population variance (§4.1 summarize): mean of squared
deviations from the mean, divisor the count. -/
def popVariance (l : List ℚ) : ℚ :=
  (l.map fun v => (v - l.sum / (l.length : ℚ)) ^ 2).sum / (l.length : ℚ)

/-- Embedding of a call `top_n_by_value(items, n)` together with its effect
on the caller's list: Python's `sorted` builds a new list and leaves its
argument unchanged, the slice `[:n]` copies, and the key function only reads
`value`, so the caller's list after the call (second component) is the input
list, records untouched. -/
def top_n_by_value_call (items : List Item) (n : Int) :
    List Item × List Item :=
  if n ≤ 0 then ([], items)
  else ((items.mergeSort valueDescLE).take n.toNat, items)

/-- Decimal rendering of a rational, matching Python's `str` on the floats
this program prints (all exact decimals): shortest fractional part, at least
one fractional digit (`10.0`, `2.5`, `0.4`). -/
def fmtVal (q : ℚ) : String :=
  let sgn := if q < 0 then "-" else ""
  let n := q.num.natAbs
  let d := q.den
  match (List.range 40).find? (fun k => 10 ^ k % d = 0) with
  | none => sgn ++ toString n ++ "/" ++ toString d
  | some k =>
    if k = 0 then sgn ++ toString (n / d) ++ ".0"
    else
      let scaled := n * 10 ^ k / d
      let ip := scaled / 10 ^ k
      let fp := scaled % 10 ^ k
      let fs := toString fp
      sgn ++ toString ip ++ "." ++
        String.mk (List.replicate (k - fs.length) (Char.ofNat 48)) ++ fs

/-- One line of the top-items listing, line 129:
`print(f" - ({it.id}) {it.name}: {it.value}")` — note the leading space. -/
def itemLine (it : Item) : String :=
  " - (" ++ toString it.id ++ ") " ++ it.name ++ ": " ++ fmtVal it.value

/-- How the f-string of line 132 renders an optional rational: Python prints
`None` for the missing value. -/
def optValStr (o : Option ℚ) : String :=
  match o with
  | none => "None"
  | some q => fmtVal q

/-- Rendering of the stddev entry on line 132: `None` when absent, otherwise
the (float) square root of the variance rendered by the ambient float
formatter `f`, which this embedding keeps abstract. -/
def optSqrtStr (o : Option ℚ) (f : ℚ → String) : String :=
  match o with
  | none => "None"
  | some q => f q

/-- The statistics line of line 132. -/
def statsLineOf (st : StatsResult) (f : ℚ → String) : String :=
  "Stats — count: " ++ toString st.count ++ ", sum: " ++ fmtVal st.sum ++
    ", mean: " ++ optValStr st.mean ++ ", stddev: " ++
    optSqrtStr st.variance f

/-- The lines printed in human-readable mode (lines 127-132): header, one
line per top item, a blank line, the statistics line. `f` renders the float
square root of the variance. -/
def human_output (a : Args) (f : ℚ → String) : List String :=
  ("Top items:" :: ((main_output a).1.map itemLine)) ++
    ["", statsLineOf (main_output a).2 f]

lemma forall2_map_self {R : Item → Item → Prop} (f : Item → Item) :
    ∀ (l : List Item), (∀ a ∈ l, R (f a) a) → List.Forall₂ R (l.map f) l
  | [], _ => by simp
  | a :: t, h =>
    List.Forall₂.cons (h a (List.mem_cons_self a t))
      (forall2_map_self f t fun x hx => h x (List.mem_cons_of_mem a hx))

/-- C1: `normalize_values` returns a list of the same length in which every
element keeps its `id` and `name` and has its value divided by the total,
except when the total is exactly 0, in which case each element equals the
corresponding input element. -/
theorem normalize_values_spec (items : List Item) :
    (normalize_values items).length = items.length ∧
    List.Forall₂ (fun r x => r.id = x.id ∧ r.name = x.name ∧
        r.value = if (items.map Item.value).sum = 0 then x.value
          else x.value / (items.map Item.value).sum)
      (normalize_values items) items := by
  by_cases ht : (items.map Item.value).sum = 0
  · refine ⟨by simp [normalize_values, ht], ?_⟩
    rw [show normalize_values items = items from by simp [normalize_values, ht]]
    exact List.forall₂_same.mpr fun x hx => ⟨rfl, rfl, by rw [if_pos ht]⟩
  · refine ⟨by simp [normalize_values, ht], ?_⟩
    rw [show normalize_values items =
        items.map (fun i => ⟨i.id, i.name,
          i.value / (items.map Item.value).sum⟩) from by
      simp [normalize_values, ht]]
    exact forall2_map_self _ items fun a ha => ⟨rfl, rfl, by rw [if_neg ht]⟩

/-- C5: for `n ≤ 0`, `top_n_by_value` returns the empty list (and, being a
total function, raises no error). -/
theorem top_n_by_value_nonpos (items : List Item) (n : Int) (h : n ≤ 0) :
    top_n_by_value items n = [] := by
  simp [top_n_by_value, h]

/-- Witness for `top_n_by_value_nonpos` at `n = 0` on the sample list. -/
theorem top_n_by_value_nonpos_witness :
    (0 : Int) ≤ 0 ∧ top_n_by_value build_example_items 0 = [] :=
  ⟨le_refl 0, top_n_by_value_nonpos build_example_items 0 (le_refl 0)⟩

/-- C6: on a non-empty list whose values have nonzero total, the values of
`normalize_values` sum to exactly 1 (exact rational arithmetic). -/
theorem normalize_values_sum_one (items : List Item) (hne : items ≠ [])
    (ht : (items.map Item.value).sum ≠ 0) :
    ((normalize_values items).map Item.value).sum = 1 := by
  simp only [normalize_values]
  rw [if_neg ht, List.map_map]
  have hc : (Item.value ∘ fun i => (⟨i.id, i.name,
      i.value / (items.map Item.value).sum⟩ : Item)) =
      fun i => Item.value i * ((items.map Item.value).sum)⁻¹ := by
    funext i
    simp [div_eq_mul_inv]
  rw [hc, List.sum_map_mul_right, mul_inv_cancel₀ ht]

/-- Witness for `normalize_values_sum_one` on the sample list (total 25). -/
theorem normalize_values_sum_one_witness :
    build_example_items ≠ [] ∧
    (build_example_items.map Item.value).sum ≠ 0 ∧
    ((normalize_values build_example_items).map Item.value).sum = 1 :=
  ⟨by simp [build_example_items], by norm_num [build_example_items],
    normalize_values_sum_one build_example_items (by simp [build_example_items])
      (by norm_num [build_example_items])⟩

lemma top3_example_eval :
    top_n_by_value build_example_items 3 =
      [⟨1, "alpha", 10.0⟩, ⟨5, "epsilon", 7.5⟩, ⟨2, "beta", 5.0⟩] := by
  norm_num [top_n_by_value, build_example_items, List.mergeSort,
    List.splitInTwo, List.splitAt, List.splitAt.go, List.merge, valueDescLE,
    List.take, Int.toNat]

/-- C8: the demo builder returns exactly the five fixed records, and the
default invocation's top 3 is alpha (10.0), epsilon (7.5), beta (5.0). -/
theorem build_example_items_spec :
    build_example_items =
      [⟨1, "alpha", 10.0⟩, ⟨2, "beta", 5.0⟩, ⟨3, "gamma", 0.0⟩,
       ⟨4, "delta", 2.5⟩, ⟨5, "epsilon", 7.5⟩] ∧
    top_n_by_value build_example_items 3 =
      [⟨1, "alpha", 10.0⟩, ⟨5, "epsilon", 7.5⟩, ⟨2, "beta", 5.0⟩] :=
  ⟨rfl, top3_example_eval⟩

/-- C9: the call embedding of `top_n_by_value` leaves the caller's list
exactly as it was — same records in the same order — while computing the same
result as the pure function. -/
theorem top_n_by_value_call_frame (items : List Item) (n : Int) :
    (top_n_by_value_call items n).2 = items ∧
    (top_n_by_value_call items n).1 = top_n_by_value items n := by
  by_cases h : n ≤ 0 <;> simp [top_n_by_value_call, top_n_by_value, h]

lemma stats_count_eq_length (l : List Item) : (stats l).count = l.length := by
  by_cases h : l.length = 0 <;> simp [stats, h]

/-- C3: on a non-empty list, `stats` returns the length as count, the sum of
the values, their mean `sum / count`, and the population standard deviation
(square root of the mean of squared deviations, divisor the count); on the
empty list it returns count 0, sum 0.0 and absent mean and stddev, and being
a total function it raises no error either way. -/
theorem stats_spec (items : List Item) (h : items ≠ []) :
    stats [] = ⟨0, 0, none, none⟩ ∧ stddev [] = none ∧
    (stats items).count = items.length ∧
    (stats items).sum = (items.map Item.value).sum ∧
    (stats items).mean =
      some ((items.map Item.value).sum / (items.length : ℚ)) ∧
    stddev items =
      some (Real.sqrt ((popVariance (items.map Item.value) : ℚ) : ℝ)) := by
  have hlen : items.length ≠ 0 := fun hh => h (List.length_eq_zero.mp hh)
  refine ⟨rfl, rfl, ?_, ?_, ?_, ?_⟩
  · simp [stats, hlen]
  · simp [stats, hlen]
  · simp [stats, hlen]
  · simp [stddev, stats, hlen, popVariance, List.length_map]

/-- Witness for `stats_spec` on the five-record sample. -/
theorem stats_spec_witness :
    stats [] = ⟨0, 0, none, none⟩ ∧ stddev [] = none ∧
    (stats build_example_items).count = build_example_items.length ∧
    (stats build_example_items).sum =
      (build_example_items.map Item.value).sum ∧
    (stats build_example_items).mean =
      some ((build_example_items.map Item.value).sum /
        (build_example_items.length : ℚ)) ∧
    stddev build_example_items =
      some (Real.sqrt
        ((popVariance (build_example_items.map Item.value) : ℚ) : ℝ)) :=
  stats_spec build_example_items (by simp [build_example_items])

/-- C10: whenever `stats` computes a variance, that variance is a sum of
squares divided by a positive count and hence nonnegative, so the square
root on line 87 is always taken of a nonnegative number: the `sqrt`-of-a-
negative failure is unreachable and `stats` is total. -/
theorem stats_variance_nonneg (items : List Item) (v : ℚ)
    (h : (stats items).variance = some v) : 0 ≤ v := by
  by_cases hl : items.length = 0
  · simp [stats, hl] at h
  · simp only [stats] at h
    rw [if_neg hl] at h
    simp only [Option.some.injEq] at h
    rw [← h]
    apply div_nonneg
    · apply List.sum_nonneg
      intro x hx
      obtain ⟨y, _, rfl⟩ := List.mem_map.mp hx
      exact sq_nonneg _
    · exact Nat.cast_nonneg _

/-- Witness for `stats_variance_nonneg`: the sample's variance is 25/2. -/
theorem stats_variance_nonneg_witness :
    (stats build_example_items).variance = some ((25 : ℚ)/2) ∧
    (0 : ℚ) ≤ (25 : ℚ)/2 :=
  ⟨by norm_num [stats, build_example_items],
    stats_variance_nonneg build_example_items ((25 : ℚ)/2)
      (by norm_num [stats, build_example_items])⟩

/-- C4: the statistics in the driver's output are `stats` of the full
working set (the sample, normalized when the flag is set), and in particular
differ from the statistics of the displayed top-N subset (already at the
default invocation, where the counts are 5 and 3). -/
theorem main_output_stats_full (a : Args) :
    (main_output a).2 = stats (working_set a) ∧
    (main_output ⟨3, false, false⟩).2 ≠
      stats ((main_output ⟨3, false, false⟩).1) := by
  refine ⟨rfl, ?_⟩
  intro heq
  have hc := congrArg StatsResult.count heq
  rw [stats_count_eq_length] at hc
  have h2 : (main_output ⟨3, false, false⟩).2.count = 5 := by
    norm_num [main_output, stats, build_example_items]
  have h1 : (main_output ⟨3, false, false⟩).1.length = 3 := by
    norm_num [main_output, top_n_by_value, build_example_items, Int.toNat]
  rw [h1, h2] at hc
  exact absurd hc (by norm_num)

lemma valueDescLE_trans : ∀ (a b c : Item),
    valueDescLE a b → valueDescLE b c → valueDescLE a c := by
  intro a b c hab hbc
  simp only [valueDescLE, decide_eq_true_eq] at hab hbc ⊢
  exact le_trans hbc hab

lemma valueDescLE_total : ∀ (a b : Item),
    valueDescLE a b || valueDescLE b a := by
  intro a b
  simp only [valueDescLE, Bool.or_eq_true, decide_eq_true_eq]
  exact le_total b.value a.value

lemma mergeSort_filter_value (items : List Item) (v : ℚ) :
    (items.mergeSort valueDescLE).filter (fun it => decide (it.value = v)) =
      items.filter (fun it => decide (it.value = v)) := by
  have hperm : List.Perm (items.mergeSort valueDescLE) items :=
    List.mergeSort_perm items valueDescLE
  have hpair : (items.filter (fun it => decide (it.value = v))).Pairwise
      (fun a b => valueDescLE a b = true) := by
    apply List.pairwise_of_forall_mem_list
    intro a ha b hb
    have ha2 := (List.mem_filter.mp ha).2
    have hb2 := (List.mem_filter.mp hb).2
    simp only [decide_eq_true_eq] at ha2 hb2
    simp [valueDescLE, ha2, hb2]
  have hsub : List.Sublist (items.filter (fun it => decide (it.value = v)))
      (items.mergeSort valueDescLE) :=
    List.sublist_mergeSort valueDescLE_trans valueDescLE_total hpair
      (List.filter_sublist items)
  have hsub2 : List.Sublist (items.filter (fun it => decide (it.value = v)))
      ((items.mergeSort valueDescLE).filter
        (fun it => decide (it.value = v))) := by
    have h3 := hsub.filter (fun it => decide (it.value = v))
    rwa [List.filter_eq_self.mpr (fun a ha => (List.mem_filter.mp ha).2)] at h3
  have hlen : (items.filter (fun it => decide (it.value = v))).length =
      ((items.mergeSort valueDescLE).filter
        (fun it => decide (it.value = v))).length :=
    ((hperm.filter _).length_eq).symm
  exact (hsub2.eq_of_length hlen).symm

/-- C2: for `n > 0`, `top_n_by_value` returns the first `n` records of a
stable descending sort of the input: some list `s` that is a permutation of
the input, is sorted by value descending, keeps records of any given value in
their input order, and of which the result is the `n`-prefix; the result has
length `min n (length input)`, and when `n` reaches the length the whole
sorted list is returned. -/
theorem top_n_by_value_spec (items : List Item) (n : Int) (h : 0 < n) :
    ∃ s : List Item,
      List.Perm s items ∧
      s.Pairwise (fun a b => b.value ≤ a.value) ∧
      (∀ v : ℚ, s.filter (fun it => decide (it.value = v)) =
        items.filter (fun it => decide (it.value = v))) ∧
      top_n_by_value items n = s.take n.toNat ∧
      (top_n_by_value items n).length = min n.toNat items.length ∧
      (items.length ≤ n.toNat → top_n_by_value items n = s) := by
  have hn : ¬ n ≤ 0 := not_le.mpr h
  refine ⟨items.mergeSort valueDescLE,
    List.mergeSort_perm items valueDescLE, ?_, ?_, ?_, ?_, ?_⟩
  · have hs := List.sorted_mergeSort valueDescLE_trans valueDescLE_total items
    exact hs.imp fun hab => by simpa [valueDescLE] using hab
  · exact fun v => mergeSort_filter_value items v
  · simp [top_n_by_value, hn]
  · simp [top_n_by_value, hn, List.length_take, List.length_mergeSort]
  · intro hle
    simp only [top_n_by_value, if_neg hn]
    rw [List.take_of_length_le]
    rwa [List.length_mergeSort]

/-- Witness for `top_n_by_value_spec` at the sample list and `n = 3`. -/
theorem top_n_by_value_spec_witness :
    (0 : Int) < 3 ∧
    (∃ s : List Item,
      List.Perm s build_example_items ∧
      s.Pairwise (fun a b => b.value ≤ a.value) ∧
      (∀ v : ℚ, s.filter (fun it => decide (it.value = v)) =
        build_example_items.filter (fun it => decide (it.value = v))) ∧
      top_n_by_value build_example_items 3 = s.take (3 : Int).toNat ∧
      (top_n_by_value build_example_items 3).length =
        min (3 : Int).toNat build_example_items.length ∧
      (build_example_items.length ≤ (3 : Int).toNat →
        top_n_by_value build_example_items 3 = s)) :=
  ⟨by norm_num, top_n_by_value_spec build_example_items 3 (by norm_num)⟩

/-- C7 counterexample: at the default invocation the second printed line is
` - (1) alpha: 10.0`, which carries a leading space and therefore is not of
the claimed exact shape `- (<id>) <name>: <value>`. -/
theorem human_output_leading_space :
    (human_output ⟨3, false, false⟩ fmtVal).get? 1 =
      some (itemLine ⟨1, "alpha", 10.0⟩) ∧
    itemLine ⟨1, "alpha", 10.0⟩ = " - (1) alpha: 10.0" ∧
    " - (1) alpha: 10.0" ≠ "- (1) alpha: 10.0" := by
  refine ⟨?_, ?_, by decide⟩
  · have h1 : (main_output ⟨3, false, false⟩).1 =
        top_n_by_value build_example_items 3 := rfl
    simp [human_output, h1, top3_example_eval]
  · have h : (10.0 : ℚ) = 10 := by norm_num
    rw [itemLine, h]
    decide

/-- C7 (amended): in human-readable mode the driver prints the header
`Top items:`, one line per top record formatted as
` - (<id>) <name>: <value>` — with a leading space before the dash — then a
blank line, then `Stats — count: <c>, sum: <s>, mean: <m>, stddev: <sd>`,
where the mean and stddev slots render as the explicit marker `None` when
they are absent (count 0). -/
theorem human_output_format (a : Args) (f : ℚ → String) :
    human_output a f =
      "Top items:" :: (((main_output a).1.map fun it =>
        " - (" ++ toString it.id ++ ") " ++ it.name ++ ": " ++
          fmtVal it.value) ++
      ["", "Stats — count: " ++ toString ((main_output a).2.count) ++
        ", sum: " ++ fmtVal ((main_output a).2.sum) ++
        ", mean: " ++ optValStr ((main_output a).2.mean) ++
        ", stddev: " ++ optSqrtStr ((main_output a).2.variance) f]) ∧
    optValStr none = "None" ∧ optSqrtStr none f = "None" := by
  refine ⟨?_, rfl, rfl⟩
  simp [human_output, itemLine, statsLineOf]
